import Mathlib

/-!
Verification of the trailing-slash normalization middleware
(`src/extra/src/trailing_slash.rs`) of the salvo HTTP framework.

The middleware's own code (`default_add_filter`, `default_remove_filter`,
`TrailingSlash`, `TrailingSlash::handle`, `replace_uri_path`, `add_slash`,
`remove_slash`) is embedded directly from the source.  The surrounding
framework types it uses (`Uri`/`PathAndQuery` from the `http` crate,
`Request`, `Response`, `Body`, `FlowCtrl`, `Depot`, `Redirect` from
`salvo_core`, whose sources are not part of this tree) are modelled from
the specification's data model (spec sections 3 and 6).  Panicking calls
(`unwrap`) are embedded as `Option`, with `none` standing for the panic.
-/

/- ### Rust string primitives, embedded over `List Char` -/

/-- Splits a list at the FIRST occurrence of `c`: returns the part before and,
when `c` occurs, the part after (neither containing that occurrence).
Embeds the query-splitting scan of `http::uri::PathAndQuery` parsing. -/
def splitFirst : List Char → Char → List Char × Option (List Char)
  | [], _ => ([], none)
  | x :: xs, c =>
    if x = c then ([], some xs)
    else
      let r := splitFirst xs c
      (x :: r.1, r.2)

/-- Splits a list at the LAST occurrence of `c`: returns `some (pre, post)`
with neither part containing that occurrence, or `none` when `c` is absent.
Embeds Rust's `str::rsplit_once` (on a single-char pattern). -/
def rsplitOnceList : List Char → Char → Option (List Char × List Char)
  | [], _ => none
  | x :: xs, c =>
    match rsplitOnceList xs c with
    | some (pre, post) => some (x :: pre, post)
    | none => if x = c then some ([], xs) else none

/-- Embeds Rust's `str::rsplit_once` on `String`. -/
def rsplitOnce (s : String) (c : Char) : Option (String × String) :=
  (rsplitOnceList s.data c).map (fun r => (String.mk r.1, String.mk r.2))

/-- Embeds Rust's `str::trim_end_matches` (single-char pattern) on lists:
removes every trailing occurrence of `c`. -/
def trimEndList (l : List Char) (c : Char) : List Char :=
  (l.reverse.dropWhile (fun x => x = c)).reverse

/-- Embeds Rust's `str::trim_end_matches` on `String`. -/
def trimEndMatches (s : String) (c : Char) : String :=
  String.mk (trimEndList s.data c)

/-- Embeds Rust's `str::ends_with` (single-char pattern). -/
def rustEndsWith (s : String) (c : Char) : Bool :=
  match s.data.getLast? with
  | some x => x = c
  | none => false

/-- Embeds Rust's `str::contains` (single-char pattern). -/
def rustContains (s : String) (c : Char) : Bool :=
  s.data.contains c

/- ### URI model -/

/-- Modelled from the spec: legal characters of a URI path component
("illegal characters" make path construction fail, spec section 4.2).
Alphanumerics, unreserved and sub-delimiter punctuation, percent,
colon, at-sign and the path separator. The query delimiter `?` and the
fragment delimiter `#` are NOT path characters. -/
def isPathChar (c : Char) : Bool :=
  c.isAlphanum || c == '-' || c == '.' || c == '_' || c == '~' || c == '%' ||
  c == '!' || c == '$' || c == '&' || c == '(' || c == ')' || c == '*' ||
  c == '+' || c == ',' || c == ';' || c == '=' || c == ':' || c == '@' || c == '/'

/-- Modelled from the spec: legal characters of a URI query component;
a further `?` is allowed inside the query. -/
def isQueryChar (c : Char) : Bool :=
  isPathChar c || c == '?'

/-- Modelled from the spec (section 3): a URI has optional scheme and
authority, and a path plus optional query (the `http` crate's `Uri`). -/
structure Uri where
  scheme : Option String
  authority : Option String
  path : String
  query : Option String
deriving DecidableEq

/-- Modelled from the spec: the `http` crate's `PathAndQuery` — a parsed
path plus optional query. -/
structure PathAndQuery where
  path : String
  query : Option String
deriving DecidableEq

/-- Modelled from the spec: `PathAndQuery::from_str` splits the input at the
first `?` into path and query and fails (`none`) on illegal characters. -/
def PathAndQuery.from_str (s : String) : Option PathAndQuery :=
  let r := splitFirst s.data '?'
  if r.1.all isPathChar &&
      (match r.2 with | some ql => ql.all isQueryChar | none => true) then
    some { path := String.mk r.1, query := r.2.map String.mk }
  else
    none

/-- Modelled from the spec: `Uri::from_parts` reassembles a URI from scheme,
authority and path-and-query; it fails (`none`) when a scheme is given
without an authority or vice versa. -/
def Uri.from_parts (scheme authority : Option String) (pq : PathAndQuery) :
    Option Uri :=
  if scheme.isSome == authority.isSome then
    some { scheme := scheme, authority := authority,
           path := pq.path, query := pq.query }
  else
    none

/-- Well-formedness of a `Uri` as guaranteed by the `http` crate's parser:
path and query hold only legal characters and scheme/authority come
together. Every URI carried by a real parsed request satisfies this. -/
def Uri.wf (u : Uri) : Bool :=
  u.path.data.all isPathChar &&
  (match u.query with | some q => q.data.all isQueryChar | none => true) &&
  (u.scheme.isSome == u.authority.isSome)

/- ### Request / middleware state model -/

/-- Modelled from the spec (section 3): a request owns an immutable URI;
other request data (method, headers) is irrelevant to this middleware but
kept so that theorems can quantify over it. -/
structure Request where
  uri : Uri
  method : String
  headers : List (String × String)
deriving DecidableEq

/-- Modelled from the spec: the response body variants (empty, bytes,
stream placeholder). -/
inductive Body where
  | none
  | once (data : String)
  | stream
deriving DecidableEq

/-- HTTP status code. -/
abbrev StatusCode := Nat

/-- `StatusCode::MOVED_PERMANENTLY`. -/
def MOVED_PERMANENTLY : StatusCode := 301

/-- `StatusCode::TEMPORARY_REDIRECT`. -/
def TEMPORARY_REDIRECT : StatusCode := 307

/-- Modelled from the spec (section 3): the response holds a status code
(default unset) and a body; the `location` field records the target URI of
a rendered redirect (its string form is the `Location` header). -/
structure Response where
  status_code : Option StatusCode
  location : Option Uri
  body : Body
deriving DecidableEq

/-- Modelled from the spec (section 3): the control-flow signal, a record
with at least `skip_rest`. -/
structure FlowCtrl where
  skip_rest : Bool
deriving DecidableEq

/-- Modelled from the spec (section 3): the scoped per-request context
store (salvo's `Depot`), an opaque key-value map for this middleware. -/
structure Depot where
  map : List (String × String)
deriving DecidableEq

/-- Modelled from the spec (section 6): a redirect value carries the status
code and the target URI. -/
structure Redirect where
  code : StatusCode
  uri : Uri
deriving DecidableEq

/-- Modelled from the spec (section 6): rendering a redirect sets the
response status to the redirect's code and the `Location` target to its
URI; the body is left as is (the caller cleared it). -/
def Response.render (res : Response) (r : Redirect) : Response :=
  { res with status_code := some r.code, location := some r.uri }

/-- Modelled from the spec (section 6): the redirect construction interface,
`Redirect::with_status_code` — given a status code and target URI it
produces the redirect value. -/
def redirectWithStatusCode (code : StatusCode) (uri : Uri) :
    Except String Redirect :=
  Except.ok { code := code, uri := uri }

/- ### The middleware itself, embedded from `trailing_slash.rs` -/

/-- `TrailingSlashAction` from the source. -/
inductive TrailingSlashAction where
  | Remove
  | Add
deriving DecidableEq

/-- `TrailingSlash` from the source: action, optional filter predicate,
redirect status code. -/
structure TrailingSlash where
  action : TrailingSlashAction
  filter : Option (Request → Bool)
  redirect_code : StatusCode

/-- `TrailingSlash::new` from the source (default code 301). -/
def TrailingSlash.new (action : TrailingSlashAction) : TrailingSlash :=
  { action := action, filter := none, redirect_code := MOVED_PERMANENTLY }

/-- `TrailingSlash::with_filter` from the source. -/
def TrailingSlash.with_filter (ts : TrailingSlash) (f : Request → Bool) :
    TrailingSlash :=
  { ts with filter := some f }

/-- `TrailingSlash::with_redirect_code` from the source. -/
def TrailingSlash.with_redirect_code (ts : TrailingSlash) (c : StatusCode) :
    TrailingSlash :=
  { ts with redirect_code := c }

/-- `default_add_filter` from the source: `rsplit_once('/')` on the request
path; eligible iff the final segment has no `.`; `false` without a `/`. -/
def default_add_filter (req : Request) : Bool :=
  match rsplitOnce req.uri.path '/' with
  | some (_, name) => !(rustContains name '.')
  | none => false

/-- `default_remove_filter` from the source: `rsplit_once('/')` on the
path with trailing slashes trimmed; eligible iff the final segment has a
`.`; `false` without a remaining `/`. -/
def default_remove_filter (req : Request) : Bool :=
  match rsplitOnce (trimEndMatches req.uri.path '/') '/' with
  | some (_, name) => rustContains name '.'
  | none => false

/-- `replace_uri_path` from the source: rebuild the path-and-query from the
new path (appending `?query` when the original URI had a query) and
reassemble the URI from the original scheme and authority.  The two
`unwrap` calls of the source are embedded as `Option`: `none` is the
panic. -/
def replace_uri_path (originalUri : Uri) (newPath : String) : Option Uri :=
  let path : String :=
    match originalUri.query with
    | some query => newPath ++ "?" ++ query
    | none => newPath
  match PathAndQuery.from_str path with
  | some pq => Uri.from_parts originalUri.scheme originalUri.authority pq
  | none => none

/-- The outcome of one `handle` call: the four argument states after the
call, plus the messages sent to the diagnostic channel
(`tracing::error!`). -/
structure HandleResult where
  req : Request
  depot : Depot
  res : Response
  ctrl : FlowCtrl
  log : List String
deriving DecidableEq

/-- `TrailingSlash::handle` from the source, as explicit state passing.
`mk` stands for the external constructor `Redirect::with_status_code`
(which may fail).  On no-op paths every state component is returned
unchanged.  On trigger, the source first sets `ctrl.skip_rest()` and
clears the body (`res.set_body(Body::None)`), then attempts redirect
construction: on success it renders the redirect, on failure it only logs.
The `none` result stands for a panic escaping from `replace_uri_path`. -/
def TrailingSlash.handle (ts : TrailingSlash)
    (mk : StatusCode → Uri → Except String Redirect)
    (req : Request) (depot : Depot) (res : Response) (ctrl : FlowCtrl) :
    Option HandleResult :=
  if ((ts.filter.map (fun f => f req)).getD true) = false then
    some { req := req, depot := depot, res := res, ctrl := ctrl, log := [] }
  else if req.uri.path.isEmpty = false then
    match
      (if ts.action = TrailingSlashAction.Add ∧
          rustEndsWith req.uri.path '/' = false then
        some (replace_uri_path req.uri (req.uri.path ++ "/"))
      else if ts.action = TrailingSlashAction.Remove ∧
          rustEndsWith req.uri.path '/' = true then
        some (replace_uri_path req.uri (trimEndMatches req.uri.path '/'))
      else none) with
    | some (some newUri) =>
      match mk ts.redirect_code newUri with
      | Except.ok redirect =>
        some { req := req, depot := depot,
               res := Response.render { res with body := Body.none } redirect,
               ctrl := { ctrl with skip_rest := true }, log := [] }
      | Except.error e =>
        some { req := req, depot := depot,
               res := { res with body := Body.none },
               ctrl := { ctrl with skip_rest := true }, log := [e] }
    | some none => none
    | none =>
      some { req := req, depot := depot, res := res, ctrl := ctrl, log := [] }
  else
    some { req := req, depot := depot, res := res, ctrl := ctrl, log := [] }

/-- `add_slash` from the source. -/
def add_slash : TrailingSlash :=
  (TrailingSlash.new TrailingSlashAction.Add).with_filter default_add_filter

/-- `remove_slash` from the source. -/
def remove_slash : TrailingSlash :=
  (TrailingSlash.new TrailingSlashAction.Remove).with_filter
    default_remove_filter

/- ### Specification-side definitions and concrete fixtures -/

/-- Follows the specification's wording (section 4.4): "the last path
segment" — the characters of `p` after the last `/`. Used to state the
default-filter characterization independently of `rsplit_once`. -/
def lastSegment (p : String) : String :=
  String.mk ((p.data.reverse.takeWhile (fun c => !decide (c = '/'))).reverse)

/-- A plain GET request on the given path and query, no scheme/authority. -/
def mkRequest (path : String) (query : Option String) : Request :=
  { uri := { scheme := none, authority := none, path := path, query := query },
    method := "GET", headers := [] }

/-- A fresh response: no status, no redirect target, empty body. -/
def res0 : Response := { status_code := none, location := none, body := Body.none }

/-- A fresh control-flow signal. -/
def ctrl0 : FlowCtrl := { skip_rest := false }

/-- An empty context store. -/
def depot0 : Depot := { map := [] }

/-- Concrete original URI used to exhibit query injection through
`replace_uri_path`. -/
def uriEx : Uri := { scheme := none, authority := none, path := "/a", query := none }

/-- Concrete original URI carrying a query. -/
def uriQ : Uri := { scheme := none, authority := none, path := "/a", query := some "k=v" }

/-- Concrete valid URI for the path `/hello`. -/
def uriHello : Uri := { scheme := none, authority := none, path := "/hello", query := none }

/-- A redirect constructor that always fails, exercising the
construction-failure branch of `handle`. -/
def mkFail (_ : StatusCode) (_ : Uri) : Except String Redirect :=
  Except.error "boom"

/-- The state `handle` produces for an Add trigger on `/hello` when
redirect construction fails: short-circuited, body cleared, error logged,
no redirect rendered. -/
def resultC1 : HandleResult :=
  { req := mkRequest "/hello" none, depot := depot0, res := res0,
    ctrl := { skip_rest := true }, log := ["boom"] }

/-- The state `handle` produces for a successful Add trigger on `/hello`
with the default redirect code. -/
def resultHello : HandleResult :=
  { req := mkRequest "/hello" none, depot := depot0,
    res := { status_code := some MOVED_PERMANENTLY,
             location := some { scheme := none, authority := none,
                                path := "/hello/", query := none },
             body := Body.none },
    ctrl := { skip_rest := true }, log := [] }

/- ### Lemmas about the string primitives -/

/-- `splitFirst` finds no occurrence when the character is absent. -/
theorem splitFirst_of_not_mem {l : List Char} {c : Char} (h : c ∉ l) :
    splitFirst l c = (l, none) := by
  induction l with
  | nil => rfl
  | cons x xs ih =>
    simp only [List.mem_cons, not_or] at h
    simp [splitFirst, Ne.symm h.1, ih h.2]

/-- `splitFirst` splits exactly at the first occurrence. -/
theorem splitFirst_append {l r : List Char} {c : Char} (h : c ∉ l) :
    splitFirst (l ++ c :: r) c = (l, some r) := by
  induction l with
  | nil => simp [splitFirst]
  | cons x xs ih =>
    simp only [List.mem_cons, not_or] at h
    simp [splitFirst, Ne.symm h.1, ih h.2]

/-- `rsplitOnceList` returns `none` exactly when the character is absent. -/
theorem rsplitOnceList_eq_none_iff {l : List Char} {c : Char} :
    rsplitOnceList l c = none ↔ c ∉ l := by
  induction l with
  | nil => simp [rsplitOnceList]
  | cons x xs ih =>
    simp only [rsplitOnceList, List.mem_cons]
    cases hx : rsplitOnceList xs c with
    | some pr =>
      have : c ∈ xs := by
        by_contra hc
        rw [ih.mpr hc] at hx
        cases hx
      simp [this]
    | none =>
      have hnx : c ∉ xs := ih.mp hx
      by_cases hxc : x = c
      · simp [hxc]
      · simp [hxc, hnx, Ne.symm hxc]

/-- A successful `rsplitOnceList` decomposes the list at the last
occurrence: the returned suffix holds no further occurrence. -/
theorem rsplitOnceList_eq_some {l pre post : List Char} {c : Char}
    (h : rsplitOnceList l c = some (pre, post)) :
    l = pre ++ c :: post ∧ c ∉ post := by
  induction l generalizing pre post with
  | nil => cases h
  | cons x xs ih =>
    simp only [rsplitOnceList] at h
    cases hx : rsplitOnceList xs c with
    | some pr =>
      obtain ⟨pre1, post1⟩ := pr
      rw [hx] at h
      simp only [Option.some.injEq, Prod.mk.injEq] at h
      obtain ⟨hpre, hpost⟩ := h
      obtain ⟨hl, hnp⟩ := ih hx
      subst hpre
      subst hpost
      exact ⟨by rw [hl]; rfl, hnp⟩
    | none =>
      rw [hx] at h
      by_cases hxc : x = c
      · rw [if_pos hxc] at h
        simp only [Option.some.injEq, Prod.mk.injEq] at h
        obtain ⟨hpre, hpost⟩ := h
        subst hpre
        subst hpost
        exact ⟨by rw [hxc, List.nil_append], rsplitOnceList_eq_none_iff.mp hx⟩
      · rw [if_neg hxc] at h
        cases h

/-- `takeWhile` runs through a block of satisfying elements and stops at
the first failing one. -/
theorem takeWhile_append_of_all {p : Char → Bool} {m r : List Char} {c : Char}
    (hm : ∀ x ∈ m, p x = true) (hc : p c = false) :
    (m ++ c :: r).takeWhile p = m := by
  induction m with
  | nil => simp [List.takeWhile_cons, hc]
  | cons x xs ih =>
    have hx := hm x (by simp)
    simp [List.takeWhile_cons, hx, ih (fun y hy => hm y (by simp [hy]))]

/-- The `lastSegment` of a list decomposed at its last separator is
exactly the suffix. -/
theorem lastSegment_data {l pre post : List Char} (h : l = pre ++ '/' :: post)
    (hp : '/' ∉ post) :
    (l.reverse.takeWhile (fun c => !decide (c = '/'))).reverse = post := by
  subst h
  have hrev : (pre ++ '/' :: post).reverse = post.reverse ++ '/' :: pre.reverse := by
    simp
  rw [hrev, takeWhile_append_of_all (p := fun c => !decide (c = '/'))
        (fun x hx => by
          rw [List.mem_reverse] at hx
          have hne : ¬x = '/' := fun he => hp (he ▸ hx)
          simp [hne])
        (by simp),
      List.reverse_reverse]

/-- Trimming trailing occurrences never leaves a trailing occurrence. -/
theorem rustEndsWith_trimEndMatches (s : String) (c : Char) :
    rustEndsWith (trimEndMatches s c) c = false := by
  have h := List.head?_dropWhile_not (fun x : Char => decide (x = c)) s.data.reverse
  simp only [rustEndsWith, trimEndMatches, trimEndList, List.getLast?_reverse]
  revert h
  cases (s.data.reverse.dropWhile (fun x : Char => decide (x = c))).head? with
  | none => intro _; rfl
  | some a => intro h; simpa using h

/-- Appending the separator makes the path end with it. -/
theorem rustEndsWith_append_slash (p : String) :
    rustEndsWith (p ++ "/") '/' = true := by
  have : (p ++ "/").data = p.data ++ ['/'] := rfl
  simp [rustEndsWith, this, List.getLast?_concat]

/-- Trimming preserves character-level invariants. -/
theorem all_trimEndList {l : List Char} {c : Char} {q : Char → Bool}
    (h : l.all q = true) : (trimEndList l c).all q = true := by
  rw [List.all_eq_true] at h ⊢
  intro x hx
  apply h
  rw [trimEndList, List.mem_reverse] at hx
  have := (List.dropWhile_sublist (fun x : Char => decide (x = c))).subset hx
  rwa [List.mem_reverse] at this

/-- No legal path character is the query delimiter. -/
theorem not_mem_of_all_pathChar {l : List Char} (h : l.all isPathChar = true) :
    '?' ∉ l := by
  intro hm
  rw [List.all_eq_true] at h
  exact absurd (h _ hm) (by decide)

/- ### The `replace_uri_path` characterization -/

/-- On a well-formed original URI and a new path made of legal path
characters, `replace_uri_path` succeeds and yields exactly the original
scheme, authority and query around the new path. -/
theorem replace_uri_path_eq (u : Uri) (p : String)
    (hwf : u.wf = true) (hp : p.data.all isPathChar = true) :
    replace_uri_path u p =
      some { scheme := u.scheme, authority := u.authority,
             path := p, query := u.query } := by
  have hwf' := hwf
  simp only [Uri.wf, Bool.and_eq_true, beq_iff_eq] at hwf'
  obtain ⟨⟨hpath, hq⟩, hsa⟩ := hwf'
  have hnq : '?' ∉ p.data := not_mem_of_all_pathChar hp
  cases hu : u.query with
  | none =>
    simp only [replace_uri_path, hu, PathAndQuery.from_str,
      splitFirst_of_not_mem hnq, hp, Bool.and_self, if_pos]
    simp [Uri.from_parts, hsa]
  | some q =>
    have hqall : q.data.all isQueryChar = true := by
      rw [hu] at hq
      exact hq
    have hdata : (p ++ "?" ++ q).data = p.data ++ '?' :: q.data := by
      show (p.data ++ "?".data) ++ q.data = p.data ++ '?' :: q.data
      simp
    simp only [replace_uri_path, hu, PathAndQuery.from_str, hdata,
      splitFirst_append hnq, hp, hqall, Bool.and_self, if_pos]
    simp [Uri.from_parts, hsa]

/- ### No-op behaviour of `handle` -/

/-- Whenever the filter rejects, the path is empty, or the
action/trailing-slash combination is a no-op, `handle` returns every state
component unchanged and logs nothing. -/
theorem handle_unchanged (ts : TrailingSlash)
    (mk : StatusCode → Uri → Except String Redirect)
    (req : Request) (depot : Depot) (res : Response) (ctrl : FlowCtrl)
    (h : (ts.filter.map (fun f => f req)).getD true = false ∨
         req.uri.path.isEmpty = true ∨
         (¬(ts.action = TrailingSlashAction.Add ∧
            rustEndsWith req.uri.path '/' = false) ∧
          ¬(ts.action = TrailingSlashAction.Remove ∧
            rustEndsWith req.uri.path '/' = true))) :
    TrailingSlash.handle ts mk req depot res ctrl =
      some { req := req, depot := depot, res := res, ctrl := ctrl, log := [] } := by
  rcases h with h | h | ⟨h1, h2⟩
  · simp [TrailingSlash.handle, h]
  · simp [TrailingSlash.handle, h]
  · simp [TrailingSlash.handle, h1, h2]

/-- A non-empty string is not `isEmpty`. -/
theorem isEmpty_false_of_ne {s : String} (h : s ≠ "") : s.isEmpty = false := by
  cases hie : s.isEmpty
  · rfl
  · exact absurd ((String.isEmpty_iff s).mp hie) h

/-- An action/trailing-slash combination of the no-op rows of the decision
table leaves `handle` unchanged. -/
theorem handle_noop_of_combo (ts : TrailingSlash)
    (mk : StatusCode → Uri → Except String Redirect)
    (req : Request) (depot : Depot) (res : Response) (ctrl : FlowCtrl)
    (h : (ts.action = TrailingSlashAction.Add ∧
            rustEndsWith req.uri.path '/' = true) ∨
         (ts.action = TrailingSlashAction.Remove ∧
            rustEndsWith req.uri.path '/' = false)) :
    TrailingSlash.handle ts mk req depot res ctrl =
      some { req := req, depot := depot, res := res, ctrl := ctrl, log := [] } := by
  apply handle_unchanged
  refine Or.inr (Or.inr ⟨?_, ?_⟩)
  · rintro ⟨ha2, hs2⟩
    rcases h with ⟨ha, hs⟩ | ⟨ha, hs⟩
    · rw [hs] at hs2
      cases hs2
    · rw [ha] at ha2
      cases ha2
  · rintro ⟨ha2, hs2⟩
    rcases h with ⟨ha, hs⟩ | ⟨ha, hs⟩
    · rw [ha] at ha2
      cases ha2
    · rw [hs] at hs2
      cases hs2

/-- On a trigger whose redirect construction fails, `handle` returns the
short-circuited state: `skip_rest` set, body cleared, the error logged,
status and redirect target untouched. -/
theorem handle_trigger_error_eq (ts : TrailingSlash)
    (mk : StatusCode → Uri → Except String Redirect)
    (req : Request) (depot : Depot) (res : Response) (ctrl : FlowCtrl)
    (nu : Uri) (e : String)
    (hfilt : (ts.filter.map (fun f => f req)).getD true = true)
    (hne : req.uri.path ≠ "")
    (htrig : (ts.action = TrailingSlashAction.Add ∧
                rustEndsWith req.uri.path '/' = false) ∨
             (ts.action = TrailingSlashAction.Remove ∧
                rustEndsWith req.uri.path '/' = true))
    (hrep : replace_uri_path req.uri
        (if ts.action = TrailingSlashAction.Add then req.uri.path ++ "/"
         else trimEndMatches req.uri.path '/') = some nu)
    (herr : mk ts.redirect_code nu = Except.error e) :
    TrailingSlash.handle ts mk req depot res ctrl =
      some { req := req, depot := depot,
             res := { res with body := Body.none },
             ctrl := { ctrl with skip_rest := true }, log := [e] } := by
  have hempty : req.uri.path.isEmpty = false := isEmpty_false_of_ne hne
  rcases htrig with ⟨ha, hs⟩ | ⟨ha, hs⟩
  · rw [if_pos ha] at hrep
    unfold TrailingSlash.handle
    rw [if_neg (by simp [hfilt]), if_pos hempty, if_pos ⟨ha, hs⟩]
    simp only [hrep, herr]
  · rw [if_neg (by simp [ha])] at hrep
    unfold TrailingSlash.handle
    rw [if_neg (by simp [hfilt]), if_pos hempty, if_neg (by simp [ha]),
      if_pos ⟨ha, hs⟩]
    simp only [hrep, herr]

/- ### Claim theorems -/

/-- C1: whenever the normalizer triggers (filter passes, non-empty path,
rewriting combination), `handle` sets `skip_rest` and clears the response
body before attempting redirect construction, so that when construction
fails the error is logged on the diagnostic channel, no redirect is
rendered (status and redirect target are untouched) and the chain stays
short-circuited because `skip_rest` is still set. -/
theorem handle_error_still_short_circuits (ts : TrailingSlash)
    (mk : StatusCode → Uri → Except String Redirect)
    (req : Request) (depot : Depot) (res : Response) (ctrl : FlowCtrl)
    (nu : Uri) (e : String) (result : HandleResult)
    (hfilt : (ts.filter.map (fun f => f req)).getD true = true)
    (hne : req.uri.path ≠ "")
    (htrig : (ts.action = TrailingSlashAction.Add ∧
                rustEndsWith req.uri.path '/' = false) ∨
             (ts.action = TrailingSlashAction.Remove ∧
                rustEndsWith req.uri.path '/' = true))
    (hrep : replace_uri_path req.uri
        (if ts.action = TrailingSlashAction.Add then req.uri.path ++ "/"
         else trimEndMatches req.uri.path '/') = some nu)
    (herr : mk ts.redirect_code nu = Except.error e)
    (hres : TrailingSlash.handle ts mk req depot res ctrl = some result) :
    result.ctrl.skip_rest = true ∧ result.res.body = Body.none ∧
    result.log = [e] ∧ result.res.location = res.location ∧
    result.res.status_code = res.status_code := by
  rw [handle_trigger_error_eq ts mk req depot res ctrl nu e
      hfilt hne htrig hrep herr] at hres
  simp only [Option.some.injEq] at hres
  subst hres
  exact ⟨rfl, rfl, rfl, rfl, rfl⟩

/-- C1 witness: an Add trigger on `/hello` with a failing redirect
constructor: short-circuited, body cleared, error logged, nothing
rendered. -/
theorem handle_error_still_short_circuits_witness :
    resultC1.ctrl.skip_rest = true ∧ resultC1.res.body = Body.none ∧
    resultC1.log = ["boom"] ∧ resultC1.res.location = res0.location ∧
    resultC1.res.status_code = res0.status_code :=
  handle_error_still_short_circuits (TrailingSlash.new TrailingSlashAction.Add)
    mkFail (mkRequest "/hello" none) depot0 res0 ctrl0
    { scheme := none, authority := none, path := "/hello/", query := none }
    "boom" resultC1 (by decide) (by decide) (Or.inl ⟨by decide, by decide⟩)
    (by decide) rfl (by decide)

/-- C5: normalization is idempotent: an Add normalizer never triggers on a
path already ending in `/`, a Remove normalizer never triggers on a path
with no trailing `/` (in both cases `handle` changes nothing), and the
rewritten path of a triggered run — `p ++ "/"` for Add, the
trailing-slash-trimmed path for Remove — is of the respective stable form,
so re-running the same normalizer on it yields no further trigger. -/
theorem normalization_idempotent (ts : TrailingSlash)
    (mk : StatusCode → Uri → Except String Redirect)
    (req : Request) (depot : Depot) (res : Response) (ctrl : FlowCtrl)
    (p : String) :
    ((ts.action = TrailingSlashAction.Add ∧
        rustEndsWith req.uri.path '/' = true) ∨
     (ts.action = TrailingSlashAction.Remove ∧
        rustEndsWith req.uri.path '/' = false) →
      TrailingSlash.handle ts mk req depot res ctrl =
        some { req := req, depot := depot, res := res, ctrl := ctrl,
               log := [] }) ∧
    rustEndsWith (p ++ "/") '/' = true ∧
    rustEndsWith (trimEndMatches p '/') '/' = false :=
  ⟨fun h => handle_noop_of_combo ts mk req depot res ctrl h,
   rustEndsWith_append_slash p, rustEndsWith_trimEndMatches p '/'⟩

/-- C5 witness: the default Add normalizer does not trigger on `/hello/`
(the rewritten form of `/hello`). -/
theorem normalization_idempotent_witness :
    TrailingSlash.handle add_slash redirectWithStatusCode
        (mkRequest "/hello/" none) depot0 res0 ctrl0 =
      some { req := mkRequest "/hello/" none, depot := depot0, res := res0,
             ctrl := ctrl0, log := [] } :=
  (normalization_idempotent add_slash redirectWithStatusCode
      (mkRequest "/hello/" none) depot0 res0 ctrl0 "/hello").1
    (Or.inl ⟨by decide, by decide⟩)

/-- C7: on every pass where the normalizer does not trigger — the filter
returns false, the path is empty, or the action/trailing-slash combination
is a no-op — `handle` leaves the response, the control-flow signal and the
context store completely unchanged (and logs nothing). -/
theorem handle_pass_through_changes_nothing (ts : TrailingSlash)
    (mk : StatusCode → Uri → Except String Redirect)
    (req : Request) (depot : Depot) (res : Response) (ctrl : FlowCtrl)
    (h : (ts.filter.map (fun f => f req)).getD true = false ∨
         req.uri.path = "" ∨
         (ts.action = TrailingSlashAction.Add ∧
            rustEndsWith req.uri.path '/' = true) ∨
         (ts.action = TrailingSlashAction.Remove ∧
            rustEndsWith req.uri.path '/' = false)) :
    TrailingSlash.handle ts mk req depot res ctrl =
      some { req := req, depot := depot, res := res, ctrl := ctrl,
             log := [] } := by
  rcases h with h | h | h | h
  · exact handle_unchanged ts mk req depot res ctrl (Or.inl h)
  · refine handle_unchanged ts mk req depot res ctrl (Or.inr (Or.inl ?_))
    rw [h]
    rfl
  · exact handle_noop_of_combo ts mk req depot res ctrl (Or.inl h)
  · exact handle_noop_of_combo ts mk req depot res ctrl (Or.inr h)

/-- C7 witness: the default Add-filter rejects `/hello.world`, and `handle`
changes nothing there. -/
theorem handle_pass_through_changes_nothing_witness :
    TrailingSlash.handle add_slash redirectWithStatusCode
        (mkRequest "/hello.world" none) depot0 res0 ctrl0 =
      some { req := mkRequest "/hello.world" none, depot := depot0,
             res := res0, ctrl := ctrl0, log := [] } :=
  handle_pass_through_changes_nothing add_slash redirectWithStatusCode
    (mkRequest "/hello.world" none) depot0 res0 ctrl0 (Or.inl (by decide))

/-- C8: `handle` never mutates the request: whenever it returns, the
request URI (scheme, authority, path and query) is the one it was given. -/
theorem handle_never_mutates_request (ts : TrailingSlash)
    (mk : StatusCode → Uri → Except String Redirect)
    (req : Request) (depot : Depot) (res : Response) (ctrl : FlowCtrl)
    (result : HandleResult)
    (h : TrailingSlash.handle ts mk req depot res ctrl = some result) :
    result.req.uri = req.uri := by
  unfold TrailingSlash.handle at h
  split at h
  · simp only [Option.some.injEq] at h
    subst h
    rfl
  · split at h
    · split at h
      · split at h
        · simp only [Option.some.injEq] at h
          subst h
          rfl
        · simp only [Option.some.injEq] at h
          subst h
          rfl
      · cases h
      · simp only [Option.some.injEq] at h
        subst h
        rfl
    · simp only [Option.some.injEq] at h
      subst h
      rfl

/-- C8 witness: the successful Add trigger on `/hello` keeps the request
URI intact. -/
theorem handle_never_mutates_request_witness :
    resultHello.req.uri = (mkRequest "/hello" none).uri :=
  handle_never_mutates_request add_slash redirectWithStatusCode
    (mkRequest "/hello" none) depot0 res0 ctrl0 resultHello (by decide)

/-- The path of a well-formed URI holds only legal path characters. -/
theorem wf_path_all {u : Uri} (h : u.wf = true) :
    u.path.data.all isPathChar = true := by
  simp only [Uri.wf, Bool.and_eq_true] at h
  exact h.1.1

/-- Appending the separator keeps the path characters legal. -/
theorem all_append_slash {s : String} (h : s.data.all isPathChar = true) :
    (s ++ "/").data.all isPathChar = true := by
  have hd : (s ++ "/").data = s.data ++ ['/'] := rfl
  rw [hd, List.all_append, h]
  decide

/-- Trimming trailing separators keeps the path characters legal. -/
theorem all_trimEnd_path {s : String} (h : s.data.all isPathChar = true) :
    (trimEndMatches s '/').data.all isPathChar = true :=
  all_trimEndList h

/-- On a trigger whose redirect construction succeeds, `handle` returns
the short-circuited state with the redirect rendered onto the response. -/
theorem handle_trigger_ok_eq (ts : TrailingSlash)
    (mk : StatusCode → Uri → Except String Redirect)
    (req : Request) (depot : Depot) (res : Response) (ctrl : FlowCtrl)
    (nu : Uri) (r : Redirect)
    (hfilt : (ts.filter.map (fun f => f req)).getD true = true)
    (hne : req.uri.path ≠ "")
    (htrig : (ts.action = TrailingSlashAction.Add ∧
                rustEndsWith req.uri.path '/' = false) ∨
             (ts.action = TrailingSlashAction.Remove ∧
                rustEndsWith req.uri.path '/' = true))
    (hrep : replace_uri_path req.uri
        (if ts.action = TrailingSlashAction.Add then req.uri.path ++ "/"
         else trimEndMatches req.uri.path '/') = some nu)
    (hok : mk ts.redirect_code nu = Except.ok r) :
    TrailingSlash.handle ts mk req depot res ctrl =
      some { req := req, depot := depot,
             res := Response.render { res with body := Body.none } r,
             ctrl := { ctrl with skip_rest := true }, log := [] } := by
  have hempty : req.uri.path.isEmpty = false := isEmpty_false_of_ne hne
  rcases htrig with ⟨ha, hs⟩ | ⟨ha, hs⟩
  · rw [if_pos ha] at hrep
    unfold TrailingSlash.handle
    rw [if_neg (by simp [hfilt]), if_pos hempty, if_pos ⟨ha, hs⟩]
    simp only [hrep, hok]
  · rw [if_neg (by simp [ha])] at hrep
    unfold TrailingSlash.handle
    rw [if_neg (by simp [hfilt]), if_pos hempty, if_neg (by simp [ha]),
      if_pos ⟨ha, hs⟩]
    simp only [hrep, hok]

/-- C2: an Add normalizer whose filter passes, on a well-formed request
with a non-empty path not ending in `/`, triggers: it short-circuits and
renders a redirect with the configured code whose target path is the
original path with `/` appended. -/
theorem handle_add_triggers_redirect (ts : TrailingSlash)
    (req : Request) (depot : Depot) (res : Response) (ctrl : FlowCtrl)
    (hwf : req.uri.wf = true)
    (hact : ts.action = TrailingSlashAction.Add)
    (hfilt : (ts.filter.map (fun f => f req)).getD true = true)
    (hne : req.uri.path ≠ "")
    (hslash : rustEndsWith req.uri.path '/' = false) :
    (TrailingSlash.handle ts redirectWithStatusCode req depot res ctrl).map
        (fun r => (r.ctrl.skip_rest, r.res.status_code,
                   r.res.location.map Uri.path)) =
      some (true, some ts.redirect_code, some (req.uri.path ++ "/")) := by
  have hrep := replace_uri_path_eq req.uri (req.uri.path ++ "/") hwf
    (all_append_slash (wf_path_all hwf))
  rw [handle_trigger_ok_eq ts redirectWithStatusCode req depot res ctrl
      _ _ hfilt hne (Or.inl ⟨hact, hslash⟩)
      (by rw [if_pos hact]; exact hrep) rfl]
  rfl

/-- C2 witness: end-to-end scenario A — `add_slash` (default filter) on
`/hello` gives status 301 and redirect target path `/hello/`. -/
theorem handle_add_triggers_redirect_witness :
    (TrailingSlash.handle add_slash redirectWithStatusCode
        (mkRequest "/hello" none) depot0 res0 ctrl0).map
        (fun r => (r.ctrl.skip_rest, r.res.status_code,
                   r.res.location.map Uri.path)) =
      some (true, some MOVED_PERMANENTLY, some "/hello/") :=
  (handle_add_triggers_redirect add_slash (mkRequest "/hello" none)
      depot0 res0 ctrl0 (by decide) (by decide) (by decide) (by decide)
      (by decide)).trans (by decide)

/-- C3: a Remove normalizer whose filter passes, on a well-formed request
with a non-empty path ending in `/`, triggers: it short-circuits and
renders a redirect with the configured code whose target path is the
original path with all trailing `/` stripped. -/
theorem handle_remove_triggers_redirect (ts : TrailingSlash)
    (req : Request) (depot : Depot) (res : Response) (ctrl : FlowCtrl)
    (hwf : req.uri.wf = true)
    (hact : ts.action = TrailingSlashAction.Remove)
    (hfilt : (ts.filter.map (fun f => f req)).getD true = true)
    (hne : req.uri.path ≠ "")
    (hslash : rustEndsWith req.uri.path '/' = true) :
    (TrailingSlash.handle ts redirectWithStatusCode req depot res ctrl).map
        (fun r => (r.ctrl.skip_rest, r.res.status_code,
                   r.res.location.map Uri.path)) =
      some (true, some ts.redirect_code,
            some (trimEndMatches req.uri.path '/')) := by
  have hrep := replace_uri_path_eq req.uri (trimEndMatches req.uri.path '/')
    hwf (all_trimEnd_path (wf_path_all hwf))
  rw [handle_trigger_ok_eq ts redirectWithStatusCode req depot res ctrl
      _ _ hfilt hne (Or.inr ⟨hact, hslash⟩)
      (by rw [if_neg (by simp [hact])]; exact hrep) rfl]
  rfl

/-- C3 witness: end-to-end scenario D — `remove_slash` configured with
status 307 on `/hello.world/` gives status 307 and redirect target
`/hello.world`. -/
theorem handle_remove_triggers_redirect_witness :
    (TrailingSlash.handle (remove_slash.with_redirect_code TEMPORARY_REDIRECT)
        redirectWithStatusCode (mkRequest "/hello.world/" none)
        depot0 res0 ctrl0).map
        (fun r => (r.ctrl.skip_rest, r.res.status_code,
                   r.res.location.map Uri.path)) =
      some (true, some TEMPORARY_REDIRECT, some "/hello.world") :=
  (handle_remove_triggers_redirect
      (remove_slash.with_redirect_code TEMPORARY_REDIRECT)
      (mkRequest "/hello.world/" none) depot0 res0 ctrl0 (by decide)
      (by decide) (by decide) (by decide) (by decide)).trans (by decide)

/-- `List.contains` agrees with membership for characters. -/
theorem contains_eq_true_iff {l : List Char} {a : Char} :
    l.contains a = true ↔ a ∈ l := List.elem_iff

/-- C4 counterexample: with original URI `/a` (no query) and new path
string `/b?x`, `replace_uri_path` returns a URI whose path is `/b` — not
the given path string — and whose query is `x` although the original URI
had no query, so the claim fails as stated for this input. -/
theorem replace_uri_path_query_injection :
    (replace_uri_path uriEx "/b?x").map Uri.path = some "/b" ∧
    (replace_uri_path uriEx "/b?x").map Uri.path ≠ some "/b?x" ∧
    (replace_uri_path uriEx "/b?x").map Uri.query = some (some "x") ∧
    uriEx.query = none :=
  ⟨by decide, by decide, by decide, rfl⟩

/-- C4 (amended): for every well-formed original URI and every new path
string made of legal path characters (hence containing no `?`),
`replace_uri_path` returns a URI with the same scheme and authority as the
original, whose path is exactly the given string, and whose query equals
the original query exactly — absent when the original had none. -/
theorem replace_uri_path_preserves_components (u : Uri) (p : String)
    (hwf : u.wf = true) (hp : p.data.all isPathChar = true) :
    (replace_uri_path u p).map Uri.scheme = some u.scheme ∧
    (replace_uri_path u p).map Uri.authority = some u.authority ∧
    (replace_uri_path u p).map Uri.path = some p ∧
    (replace_uri_path u p).map Uri.query = some u.query := by
  rw [replace_uri_path_eq u p hwf hp]
  exact ⟨rfl, rfl, rfl, rfl⟩

/-- C4 witness: rewriting `/a?k=v` to path `/a/` keeps the query `k=v`. -/
theorem replace_uri_path_preserves_components_witness :
    (replace_uri_path uriQ "/a/").map Uri.scheme = some uriQ.scheme ∧
    (replace_uri_path uriQ "/a/").map Uri.authority = some uriQ.authority ∧
    (replace_uri_path uriQ "/a/").map Uri.path = some "/a/" ∧
    (replace_uri_path uriQ "/a/").map Uri.query = some uriQ.query :=
  replace_uri_path_preserves_components uriQ "/a/" (by decide) (by decide)

/-- C10: for a well-formed original URI and either new path `handle`
actually supplies — the path with `/` appended, or the path with all
trailing `/` removed (including the empty string when the path is all
slashes) — both construction steps inside `replace_uri_path` succeed, so
the embedded panics are unreachable. -/
theorem replace_uri_path_total_on_handle_inputs (u : Uri) (p : String)
    (hwf : u.wf = true)
    (hp : p = u.path ++ "/" ∨ p = trimEndMatches u.path '/') :
    (replace_uri_path u p).isSome = true := by
  rcases hp with hp | hp
  · rw [hp, replace_uri_path_eq u _ hwf (all_append_slash (wf_path_all hwf))]
    rfl
  · rw [hp, replace_uri_path_eq u _ hwf (all_trimEnd_path (wf_path_all hwf))]
    rfl

/-- C10 witness: the Add rewrite of `/hello` parses. -/
theorem replace_uri_path_total_on_handle_inputs_witness :
    (replace_uri_path uriHello ("/hello" ++ "/")).isSome = true :=
  replace_uri_path_total_on_handle_inputs uriHello ("/hello" ++ "/")
    (by decide) (Or.inl rfl)

/-- The add filter is true exactly on paths with a separator whose final
segment has no dot. -/
theorem default_add_filter_iff (req : Request) :
    default_add_filter req = true ↔
      ('/' ∈ req.uri.path.data ∧
       '.' ∉ (lastSegment req.uri.path).data) := by
  unfold default_add_filter rsplitOnce
  cases hx : rsplitOnceList req.uri.path.data '/' with
  | none =>
    have hnm : '/' ∉ req.uri.path.data := rsplitOnceList_eq_none_iff.mp hx
    simp [hnm]
  | some pr =>
    obtain ⟨pre, post⟩ := pr
    obtain ⟨hl, hnp⟩ := rsplitOnceList_eq_some hx
    have hmem : '/' ∈ req.uri.path.data := by
      rw [hl]
      simp
    have hseg : (lastSegment req.uri.path).data = post := by
      show (req.uri.path.data.reverse.takeWhile
        (fun c => !decide (c = '/'))).reverse = post
      exact lastSegment_data hl hnp
    rw [hseg]
    simp only [Option.map_some', hmem, true_and]
    rw [show rustContains (String.mk post) '.' = post.contains '.' from rfl,
      Bool.not_eq_true']
    constructor
    · intro hb hd
      rw [← contains_eq_true_iff] at hd
      rw [hd] at hb
      cases hb
    · intro hd
      cases hc : post.contains '.'
      · rfl
      · exact absurd (contains_eq_true_iff.mp hc) hd

/-- The remove filter is true exactly when the trimmed path still has a
separator and its final segment has a dot. -/
theorem default_remove_filter_iff (req : Request) :
    default_remove_filter req = true ↔
      ('/' ∈ (trimEndMatches req.uri.path '/').data ∧
       '.' ∈ (lastSegment (trimEndMatches req.uri.path '/')).data) := by
  unfold default_remove_filter rsplitOnce
  cases hx : rsplitOnceList (trimEndMatches req.uri.path '/').data '/' with
  | none =>
    have hnm : '/' ∉ (trimEndMatches req.uri.path '/').data :=
      rsplitOnceList_eq_none_iff.mp hx
    simp [hnm]
  | some pr =>
    obtain ⟨pre, post⟩ := pr
    obtain ⟨hl, hnp⟩ := rsplitOnceList_eq_some hx
    have hmem : '/' ∈ (trimEndMatches req.uri.path '/').data := by
      rw [hl]
      simp
    have hseg : (lastSegment (trimEndMatches req.uri.path '/')).data = post := by
      show ((trimEndMatches req.uri.path '/').data.reverse.takeWhile
        (fun c => !decide (c = '/'))).reverse = post
      exact lastSegment_data hl hnp
    rw [hseg]
    simp only [Option.map_some', hmem, true_and]
    exact contains_eq_true_iff

/-- C6: characterization of the default filters — the add filter is true
exactly when the path has a `/` and the segment after the last `/` has no
`.` (false when there is no `/`); the remove filter is true exactly when,
after trimming trailing `/`, the path still has a `/` and its last segment
has a `.`; with the spec's four concrete values. -/
theorem default_filters_characterized (req : Request) :
    (default_add_filter req = true ↔
      ('/' ∈ req.uri.path.data ∧ '.' ∉ (lastSegment req.uri.path).data)) ∧
    ('/' ∉ req.uri.path.data → default_add_filter req = false) ∧
    (default_remove_filter req = true ↔
      ('/' ∈ (trimEndMatches req.uri.path '/').data ∧
       '.' ∈ (lastSegment (trimEndMatches req.uri.path '/')).data)) ∧
    default_add_filter (mkRequest "/hello" none) = true ∧
    default_add_filter (mkRequest "/hello.world" none) = false ∧
    default_remove_filter (mkRequest "/hello/" none) = false ∧
    default_remove_filter (mkRequest "/hello.world/" none) = true := by
  refine ⟨default_add_filter_iff req, ?_, default_remove_filter_iff req,
    by decide, by decide, by decide, by decide⟩
  intro h
  cases hb : default_add_filter req
  · rfl
  · exact absurd ((default_add_filter_iff req).mp hb).1 h

/-- C6 witness: the characterization evaluated at `/hello`. -/
theorem default_filters_characterized_witness :
    default_add_filter (mkRequest "/hello" none) = true :=
  (default_filters_characterized (mkRequest "/hello" none)).2.2.2.1

/-- C9: the default filters are deterministic functions of the request's
URI path alone: requests with equal paths get equal filter verdicts,
whatever their other data. -/
theorem default_filters_path_deterministic (req1 req2 : Request)
    (h : req1.uri.path = req2.uri.path) :
    default_add_filter req1 = default_add_filter req2 ∧
    default_remove_filter req1 = default_remove_filter req2 := by
  unfold default_add_filter default_remove_filter
  rw [h]
  exact ⟨rfl, rfl⟩

/-- C9 witness: same path, different method, query and headers — same
verdicts. -/
theorem default_filters_path_deterministic_witness :
    default_add_filter (mkRequest "/hello" none) =
      default_add_filter
        { uri := { scheme := none, authority := none, path := "/hello",
                   query := some "a=b" },
          method := "POST", headers := [("k", "v")] } ∧
    default_remove_filter (mkRequest "/hello" none) =
      default_remove_filter
        { uri := { scheme := none, authority := none, path := "/hello",
                   query := some "a=b" },
          method := "POST", headers := [("k", "v")] } :=
  default_filters_path_deterministic _ _ rfl
